import Mathlib

/-!
Shallow embedding of the membership lifecycle and plan-duration core of the
gym administration app (Supabase-backed React front end).  The embedded
functions are translated from:

  * `src/src/pages/CreateMembershipPlan.tsx` and the `CreateMembershipPlan`
    component of `src/unnamed/part_001` — duration canonicalisation
    (`handleSubmit`), end-date preview (`handleDurationChange`), plan
    loading in edit mode (`loadPlan`);
  * the `AddMember` component of `src/unnamed/part_001` — the two-step
    enrollment workflow (`handleSubmit`);
  * `src/src/pages/Members.tsx` — member row mapping (`mapDbMember`);
  * `src/src/pages/Memberships.tsx` — the in-memory plan dialog
    (`handleSubmit`).

Dates are civil calendar dates; JavaScript `Date.setMonth` / `setDate`
normalisation is embedded explicitly (`addMonthsJS`, `addDaysJS`).
-/

namespace SWC

/-! ## Calendar dates and JavaScript date arithmetic -/

/-- Gregorian leap-year rule, as implemented by the JavaScript `Date`
calendar used in `handleDurationChange` / `handleSubmit`. -/
def isLeapYear (y : Int) : Bool :=
  (y % 4 == 0 && y % 100 != 0) || (y % 400 == 0)

/-- Number of days of month `m` (1-based) of year `y` in the proleptic
Gregorian calendar. -/
def daysInMonth (y : Int) (m : Nat) : Nat :=
  if m = 2 then (if isLeapYear y then 29 else 28)
  else if m = 4 ∨ m = 6 ∨ m = 9 ∨ m = 11 then 30
  else 31

/-- A civil calendar date: 1-based month and day.  (JavaScript months are
0-based; the embedding uses 1-based months and converts where needed.) -/
structure Date where
  year : Int
  month : Nat
  day : Nat
deriving DecidableEq, Repr

/-- `d` is a date a JavaScript `Date` object can hold after normalisation:
month in range and day within the month. -/
def Date.Valid (d : Date) : Prop :=
  1 ≤ d.month ∧ d.month ≤ 12 ∧ 1 ≤ d.day ∧ d.day ≤ daysInMonth d.year d.month

instance (d : Date) : Decidable d.Valid := by
  unfold Date.Valid; infer_instance

/-- JavaScript `end.setMonth(start.getMonth() + k)` on a copy of a valid
date: the month index is advanced by `k` (rolling the year), and a
day-of-month that overflows the target month spills into the following
month, exactly as `Date` millisecond normalisation does.  For a valid
input day (`day ≤ 31`) the overflow is at most `31 - 28 = 3` days, so a
single spill step reproduces the JavaScript result. -/
def addMonthsJS (d : Date) (k : Nat) : Date :=
  let total : Int := d.year * 12 + (d.month - 1 : Int) + k
  let y2 : Int := total.ediv 12
  let m2 : Nat := (total.emod 12).toNat + 1
  if d.day ≤ daysInMonth y2 m2 then
    ⟨y2, m2, d.day⟩
  else if m2 = 12 then
    ⟨y2 + 1, 1, d.day - daysInMonth y2 m2⟩
  else
    ⟨y2, m2 + 1, d.day - daysInMonth y2 m2⟩

/-- The day after `d` in the civil calendar. -/
def nextDay (d : Date) : Date :=
  if d.day < daysInMonth d.year d.month then ⟨d.year, d.month, d.day + 1⟩
  else if d.month < 12 then ⟨d.year, d.month + 1, 1⟩
  else ⟨d.year + 1, 1, 1⟩

/-- JavaScript `end.setDate(start.getDate() + v)` on a copy of a valid
date: advance `v` calendar days. -/
def addDaysJS (d : Date) (v : Nat) : Date :=
  Nat.rec d (fun _ acc => nextDay acc) v

/-! ## DurationCalculator -/

/-- Duration canonicalisation performed at plan save
(`CreateMembershipPlan.handleSubmit`):

```js
let duration_months = durationValue;
if (durationType === "day") duration_months = Math.ceil(durationValue / 30);
if (durationType === "week") duration_months = Math.ceil(durationValue * 7 / 30);
```

`Math.ceil (a / 30)` on a natural `a` is the natural ceiling division
`(a + 29) / 30`. -/
def toCanonicalMonths (value : Nat) (unit : String) : Nat :=
  if unit = "day" then (value + 29) / 30
  else if unit = "week" then (value * 7 + 29) / 30
  else value

/-- End-date computation from a start date, duration value and unit, as in
`handleDurationChange` (preview) and `AddMember.handleSubmit` (persisted):
day and week use `setDate(getDate() + v)` / `(+ 7v)`, month uses
`setMonth(getMonth() + v)`. -/
def computeEndDate (start : Date) (value : Nat) (unit : String) : Date :=
  if unit = "day" then addDaysJS start value
  else if unit = "week" then addDaysJS start (value * 7)
  else addMonthsJS start value

/-! ## Data model rows -/

/-- A `membership_plans` row as loaded by `AddMember` / `CreateMembershipPlan`
(`id`, `name`, `price`, `duration_months`, `features`).  The numeric price is
kept as the raw form string: no claim depends on its numeric value and the
source only pipes it through `Number(price)`. -/
structure PlanRow where
  id : String
  name : String
  price : String
  description : String
  duration_months : Nat
  features : List String
deriving DecidableEq, Repr

/-- The object `AddMember.handleSubmit` passes to
`supabase.from("members").insert`.  `status` is `Option` so that "the insert
carries no status field" is expressible; the source always includes
`status: "active"`. -/
structure MemberRow where
  first_name : String
  last_name : String
  email : String
  phone : String
  address : String
  emergency_contact_name : String
  emergency_contact_phone : String
  notes : String
  status : Option String
deriving DecidableEq, Repr

/-- The object `AddMember.handleSubmit` passes to
`supabase.from("member_memberships").insert`. -/
structure AssignmentRow where
  member_id : String
  membership_plan_id : String
  start_date : Date
  end_date : Date
  is_active : Bool
deriving DecidableEq, Repr

/-- One repository call issued against the backing store.  `deleteMember`
is the call a compensating rollback would issue; the enrollment workflow
never issues it. -/
inductive RepoOp where
  | insertMember : MemberRow → RepoOp
  | insertAssignment : AssignmentRow → RepoOp
  | deleteMember : String → RepoOp
deriving DecidableEq, Repr

/-- The external repository collaborator, as a stub: current rows, a
success/failure switch per insert table (the outcome Supabase reports), and
the trace of calls issued against it. -/
structure Repo where
  members : List (String × MemberRow)
  assignments : List AssignmentRow
  memberInsertOk : Bool
  assignInsertOk : Bool
  calls : List RepoOp
deriving DecidableEq, Repr

/-- `supabase.from("members").insert([row])`: the call is issued; on the
success path the row is stored under the id the store mints. -/
def Repo.insertMemberRow (r : Repo) (id : String) (row : MemberRow) :
    Repo × Bool :=
  let r' := { r with calls := r.calls ++ [RepoOp.insertMember row] }
  if r.memberInsertOk then
    ({ r' with members := r'.members ++ [(id, row)] }, true)
  else
    (r', false)

/-- `supabase.from("member_memberships").insert([row])`. -/
def Repo.insertAssignmentRow (r : Repo) (row : AssignmentRow) :
    Repo × Bool :=
  let r' := { r with calls := r.calls ++ [RepoOp.insertAssignment row] }
  if r.assignInsertOk then
    ({ r' with assignments := r'.assignments ++ [row] }, true)
  else
    (r', false)

/-- `supabase.from("members").delete().eq("id", id)` — available on the
collaborator (`Members.deleteMember` uses it) but never called by the
enrollment workflow. -/
def Repo.deleteMemberRow (r : Repo) (id : String) : Repo :=
  { r with
    members := r.members.filter (fun p => p.1 ≠ id),
    calls := r.calls ++ [RepoOp.deleteMember id] }

/-! ## EnrollmentCoordinator (`AddMember.handleSubmit`) -/

/-- The `AddMember` form state.  Text inputs are strings; `startDate` is the
date input, `none` when left empty (JavaScript `""`, falsy in
`formData.startDate || new Date()...`). -/
structure EnrollForm where
  firstName : String
  lastName : String
  email : String
  phone : String
  address : String
  emergencyContact : String
  emergencyPhone : String
  membershipPlan : String
  startDate : Option Date
  notes : String
deriving DecidableEq, Repr

/-- Outcome of one enrollment submission, by toast shown:
validation toast, member-insert error toast, membership-assignment warning
toast, or the success toast. -/
inductive EnrollResult where
  | validationError
  | memberCreationError
  | assignmentWarning
  | success
deriving DecidableEq, Repr

/-- The member object built by `AddMember.handleSubmit` for the `members`
insert — including the hard-coded `status: "active"` field. -/
def memberRowOfForm (fd : EnrollForm) : MemberRow :=
  { first_name := fd.firstName
    last_name := fd.lastName
    email := fd.email
    phone := fd.phone
    address := fd.address
    emergency_contact_name := fd.emergencyContact
    emergency_contact_phone := fd.emergencyPhone
    notes := fd.notes
    status := some "active" }

/-- The plan-duration lookup in `AddMember.handleSubmit`:
`selectedPlan?.duration_months || 1` — the JavaScript `||` falls back to 1
both when no plan matches the selected id and when `duration_months` is the
falsy number 0. -/
def selectedPlanMonths (plans : List PlanRow) (planId : String) : Nat :=
  match plans.find? (fun p => p.id == planId) with
  | some p => if p.duration_months = 0 then 1 else p.duration_months
  | none => 1

/-- The enrollment workflow `AddMember.handleSubmit`:

1. validation: first name, last name, email and membership plan must be
   non-empty, else the validation toast is shown and nothing else runs;
2. insert the member row (with literal `status: "active"`); on error,
   show the error toast and stop;
3. resolve the start date (`formData.startDate || today`), look up the
   selected plan's `duration_months` (`|| 1` fallback) and advance the
   start date by that many months (`setMonth`);
4. insert the assignment row; on error show the warning toast — the member
   row is left in place, no delete is issued. -/
def enroll (fd : EnrollForm) (plans : List PlanRow) (today : Date)
    (newMemberId : String) (r : Repo) : EnrollResult × Repo :=
  if fd.firstName = "" ∨ fd.lastName = "" ∨ fd.email = "" ∨
      fd.membershipPlan = "" then
    (EnrollResult.validationError, r)
  else
    let mRow := memberRowOfForm fd
    let (r1, ok1) := r.insertMemberRow newMemberId mRow
    if ok1 = false then
      (EnrollResult.memberCreationError, r1)
    else
      let startDate := fd.startDate.getD today
      let months := selectedPlanMonths plans fd.membershipPlan
      let endDate := addMonthsJS startDate months
      let aRow : AssignmentRow :=
        { member_id := newMemberId
          membership_plan_id := fd.membershipPlan
          start_date := startDate
          end_date := endDate
          is_active := true }
      let (r2, ok2) := r1.insertAssignmentRow aRow
      if ok2 = false then
        (EnrollResult.assignmentWarning, r2)
      else
        (EnrollResult.success, r2)

/-! ## PlanCatalogEditor (`CreateMembershipPlan`, `src/unnamed/part_001`) -/

/-- One persistence call issued by the plan editor: an insert of a new
`membership_plans` row or an update of row `id`. -/
inductive PlanRepoOp where
  | insertPlan : PlanRow → PlanRepoOp
  | updatePlan : String → PlanRow → PlanRepoOp
deriving DecidableEq, Repr

/-- Outcome of one plan-editor submission. -/
inductive SaveResult where
  | validationError
  | repositoryError : String → SaveResult
  | saved : PlanRow → SaveResult
deriving DecidableEq, Repr

/-- The edit form state of `CreateMembershipPlan`: name, price text,
description, duration value and unit, selected class badges. -/
structure PlanForm where
  name : String
  price : String
  description : String
  durationValue : Nat
  durationType : String
  selectedClasses : List String
deriving DecidableEq, Repr

/-- `CreateMembershipPlan.handleSubmit` (the editing-capable variant of
`src/unnamed/part_001`):

1. validate `!name || !price || selectedClasses.length === 0` → error
   message, no persistence call;
2. canonicalise the duration to months;
3. update row `editingId` when editing, insert a new row otherwise;
4. surface the repository error message verbatim on failure.

`repoError = none` means the store accepted the write; `some msg` is the
error Supabase reported. -/
def savePlan (editingId : Option String) (f : PlanForm) (newPlanId : String)
    (repoError : Option String) : SaveResult × List PlanRepoOp :=
  if f.name = "" ∨ f.price = "" ∨ f.selectedClasses = [] then
    (SaveResult.validationError, [])
  else
    let months := toCanonicalMonths f.durationValue f.durationType
    let row : PlanRow :=
      { id := editingId.getD newPlanId
        name := f.name
        price := f.price
        description := f.description
        duration_months := months
        features := f.selectedClasses }
    let op := match editingId with
      | some id => PlanRepoOp.updatePlan id row
      | none => PlanRepoOp.insertPlan row
    match repoError with
    | some msg => (SaveResult.repositoryError msg, [op])
    | none => (SaveResult.saved row, [op])

/-- `CreateMembershipPlan.loadPlan` (edit mode): the stored row populates
the form; the duration value is the stored `duration_months` and the
duration unit is re-derived as `"month"` regardless of the unit used at
creation time. -/
def loadPlan (stored : PlanRow) : PlanForm :=
  { name := stored.name
    price := stored.price
    description := stored.description
    durationValue := stored.duration_months
    durationType := "month"
    selectedClasses := stored.features }

/-! ## The in-memory plan dialog (`Memberships.handleSubmit`) -/

/-- JavaScript `s.split(',')` at character level: splits on every comma,
and `"".split(',')` is `[""]`. -/
def splitComma : List Char → List (List Char)
  | [] => [[]]
  | c :: rest =>
      match splitComma rest with
      | [] => [[]]
      | t :: ts => if c = ',' then [] :: t :: ts else (c :: t) :: ts

/-- JavaScript `String.prototype.trim`: strip whitespace from both ends. -/
def trimChars (cs : List Char) : List Char :=
  ((cs.dropWhile Char.isWhitespace).reverse.dropWhile Char.isWhitespace).reverse

/-- `formData.features.split(',').map(f => f.trim()).filter(f => f)` from
`Memberships.handleSubmit`: split the comma-separated features text, trim
each part, drop the empty (falsy) ones. -/
def featuresArrayOf (s : String) : List String :=
  (((splitComma s.toList).map trimChars).filter (fun t => t ≠ [])).map
    (fun t => String.mk t)

/-- The `Memberships` dialog form state (all text inputs). -/
structure DialogForm where
  name : String
  price : String
  duration : String
  features : String
deriving DecidableEq, Repr

/-- Outcome of one `Memberships.handleSubmit` dialog submission: the
validation toast, or the locally updated/created plan card (name, price
text, duration text, parsed features).  The handler touches only the
in-memory list — it issues no repository call in either branch. -/
inductive DialogOutcome where
  | validationError
  | updated : String → String → String → List String → DialogOutcome
  | created : String → String → String → List String → DialogOutcome
deriving DecidableEq, Repr

/-- `Memberships.handleSubmit`: requires `name`, `price` and `duration`
to be non-empty (`!formData.name || !formData.price || !formData.duration`);
the features text is parsed but never checked for emptiness. -/
def dialogSubmit (f : DialogForm) (editing : Bool) : DialogOutcome :=
  if f.name = "" ∨ f.price = "" ∨ f.duration = "" then
    DialogOutcome.validationError
  else
    let fs := featuresArrayOf f.features
    if editing then DialogOutcome.updated f.name f.price f.duration fs
    else DialogOutcome.created f.name f.price f.duration fs

/-! ## MembershipStatusResolver -/

/-- Derived membership status. -/
inductive MemberStatus where
  | active
  | expiring
  | expired
deriving DecidableEq, Repr

/-- Modelled from the spec: the repository contains no status-derivation
code — `Members.mapDbMember` copies the stored `db.status` string verbatim
and `getStatusBadge` only maps the strings "Active"/"Expiring"/"Expired" to
badges — so `resolveStatus` of §4.2 (MembershipStatusResolver) is embedded
from the spec's contract, with dates as integer day numbers so that
`endDate − now` is the day difference:
Expired when `now > endDate`; Expiring when `endDate − now ≤ thresholdDays`
(inclusive) and `now ≤ endDate`; Active otherwise. -/
def resolveStatus (endDate now thresholdDays : Int) : MemberStatus :=
  if now > endDate then MemberStatus.expired
  else if endDate - now ≤ thresholdDays then MemberStatus.expiring
  else MemberStatus.active

/-! ## Concrete test vectors -/

/-- A fully filled enrollment form: all required fields non-empty, start
date left empty (so it resolves to "today"), selected plan id `plan-1`. -/
def sampleForm : EnrollForm :=
  { firstName := "Ann", lastName := "Lee", email := "ann@example.com"
    phone := "", address := "", emergencyContact := "", emergencyPhone := ""
    membershipPlan := "plan-1", startDate := none, notes := "" }

/-- `sampleForm` with the email left empty. -/
def sampleFormNoEmail : EnrollForm :=
  { sampleForm with email := "" }

/-- A stored three-month plan with id `plan-1`. -/
def samplePlan : PlanRow :=
  { id := "plan-1", name := "Gold", price := "499", description := ""
    duration_months := 3, features := ["Yoga"] }

/-- An empty stub repository on which both inserts succeed. -/
def stubRepoOk : Repo :=
  { members := [], assignments := [], memberInsertOk := true
    assignInsertOk := true, calls := [] }

/-- An empty stub repository on which the member insert succeeds and the
assignment insert fails. -/
def stubRepoAssignFail : Repo :=
  { stubRepoOk with assignInsertOk := false }

/-- A concrete "today". -/
def sampleDate : Date := ⟨2024, 1, 1⟩

/-! ## Theorems -/

/-- Natural ceiling division by 30, as the source's
`Math.ceil(a / 30) = (a + 29) / 30` pattern, agrees with the rational
ceiling. -/
theorem natCeilDivThirty (a : ℕ) :
    (((a + 29) / 30 : ℕ) : ℤ) = ⌈(a : ℚ) / 30⌉ := by
  set n : ℕ := (a + 29) / 30 with hn
  have h1 : a ≤ 30 * n := by omega
  have h2 : 30 * n < a + 30 := by omega
  have h1q : (a : ℚ) ≤ 30 * n := by exact_mod_cast h1
  have h2q : (30 : ℚ) * n < a + 30 := by exact_mod_cast h2
  rw [eq_comm, Int.ceil_eq_iff]
  constructor
  · push_cast
    rw [lt_div_iff₀ (by norm_num : (0 : ℚ) < 30)]
    linarith
  · push_cast
    rw [div_le_iff₀ (by norm_num : (0 : ℚ) < 30)]
    linarith

/-- Claim C1: for every integer value ≥ 1, the duration-to-canonical-months
conversion at plan save returns `ceil(value / 30)` for unit `day`,
`ceil(value × 7 / 30)` for unit `week`, the value itself for unit `month`,
and the result is an integer ≥ 1. -/
theorem toCanonicalMonths_matches_ceil (v : ℕ) (hv : 1 ≤ v) :
    ((toCanonicalMonths v "day" : ℕ) : ℤ) = ⌈(v : ℚ) / 30⌉ ∧
    ((toCanonicalMonths v "week" : ℕ) : ℤ) = ⌈((v : ℚ) * 7) / 30⌉ ∧
    toCanonicalMonths v "month" = v ∧
    (∀ u : String, 1 ≤ toCanonicalMonths v u) := by
  refine ⟨?_, ?_, ?_, ?_⟩
  · simpa [toCanonicalMonths] using natCeilDivThirty v
  · have := natCeilDivThirty (v * 7)
    simp only [toCanonicalMonths] at *
    norm_num
    rw [show ((v : ℚ) * 7) = ((v * 7 : ℕ) : ℚ) by push_cast; ring]
    exact_mod_cast this
  · simp [toCanonicalMonths]
  · intro u
    unfold toCanonicalMonths
    split
    · omega
    · split
      · omega
      · omega

theorem toCanonicalMonths_matches_ceil_witness :
    1 ≤ 45 ∧ toCanonicalMonths 45 "day" = 2 ∧ toCanonicalMonths 45 "week" = 11 ∧
    (((toCanonicalMonths 45 "day" : ℕ) : ℤ) = ⌈(45 : ℚ) / 30⌉ ∧
     ((toCanonicalMonths 45 "week" : ℕ) : ℤ) = ⌈((45 : ℚ) * 7) / 30⌉ ∧
     toCanonicalMonths 45 "month" = 45 ∧
     (∀ u : String, 1 ≤ toCanonicalMonths 45 u)) :=
  ⟨by norm_num, by decide, by decide,
   toCanonicalMonths_matches_ceil 45 (by norm_num)⟩

/-- Claim C3: when the member draft is missing the first name, the last
name, the email or the selected plan id, `enroll` returns the validation
error and the repository is untouched — no call is issued, nothing is
inserted. -/
theorem enroll_invalid_draft_no_calls (fd : EnrollForm) (plans : List PlanRow)
    (today : Date) (newMemberId : String) (r : Repo)
    (h : fd.firstName = "" ∨ fd.lastName = "" ∨ fd.email = "" ∨
      fd.membershipPlan = "") :
    (enroll fd plans today newMemberId r).1 = EnrollResult.validationError ∧
    (enroll fd plans today newMemberId r).2 = r := by
  unfold enroll
  rw [if_pos h]
  exact ⟨rfl, rfl⟩

theorem enroll_invalid_draft_no_calls_witness :
    (enroll sampleFormNoEmail [samplePlan] sampleDate "m1" stubRepoOk).1 =
      EnrollResult.validationError ∧
    (enroll sampleFormNoEmail [samplePlan] sampleDate "m1" stubRepoOk).2 =
      stubRepoOk :=
  enroll_invalid_draft_no_calls sampleFormNoEmail [samplePlan] sampleDate
    "m1" stubRepoOk (by decide)

/-- Claim C2: when the member insert succeeds and the assignment insert
fails, `enroll` returns the assignment warning, the member row inserted in
step 2 is still present in the repository, the calls issued are exactly the
two inserts, and in particular no compensating `deleteMember` call is ever
issued. -/
theorem enroll_assignment_failure_keeps_member (fd : EnrollForm)
    (plans : List PlanRow) (today : Date) (newMemberId : String) (r : Repo)
    (h1 : fd.firstName ≠ "") (h2 : fd.lastName ≠ "") (h3 : fd.email ≠ "")
    (h4 : fd.membershipPlan ≠ "")
    (hm : r.memberInsertOk = true) (ha : r.assignInsertOk = false)
    (hc : r.calls = []) :
    (enroll fd plans today newMemberId r).1 = EnrollResult.assignmentWarning ∧
    (newMemberId, memberRowOfForm fd) ∈
      (enroll fd plans today newMemberId r).2.members ∧
    (∃ a : AssignmentRow,
      (enroll fd plans today newMemberId r).2.calls =
        [RepoOp.insertMember (memberRowOfForm fd),
         RepoOp.insertAssignment a]) ∧
    (∀ id : String,
      RepoOp.deleteMember id ∉ (enroll fd plans today newMemberId r).2.calls) := by
  unfold enroll Repo.insertMemberRow Repo.insertAssignmentRow
  rw [if_neg (by simp [h1, h2, h3, h4])]
  simp only [hm, ha, hc]
  simp

theorem enroll_assignment_failure_keeps_member_witness :
    (enroll sampleForm [] sampleDate "m1" stubRepoAssignFail).1 =
      EnrollResult.assignmentWarning ∧
    ("m1", memberRowOfForm sampleForm) ∈
      (enroll sampleForm [] sampleDate "m1" stubRepoAssignFail).2.members ∧
    (∃ a : AssignmentRow,
      (enroll sampleForm [] sampleDate "m1" stubRepoAssignFail).2.calls =
        [RepoOp.insertMember (memberRowOfForm sampleForm),
         RepoOp.insertAssignment a]) ∧
    (∀ id : String,
      RepoOp.deleteMember id ∉
        (enroll sampleForm [] sampleDate "m1" stubRepoAssignFail).2.calls) :=
  enroll_assignment_failure_keeps_member sampleForm [] sampleDate "m1"
    stubRepoAssignFail (by decide) (by decide) (by decide) (by decide)
    rfl rfl rfl

/-- Claim C4 (spec-modelled `resolveStatus`): the resolver returns Expired
when `now > endDate`, Expiring when `now ≤ endDate` and
`endDate − now ≤ thresholdDays` (inclusive), Active otherwise; and the
three documented instances `endDate = today+3 / today−1 / today+30` with
`thresholdDays = 7` resolve to Expiring, Expired and Active. -/
theorem resolveStatus_cases :
    (∀ endDate now threshold : Int,
      (now > endDate →
        resolveStatus endDate now threshold = MemberStatus.expired) ∧
      (now ≤ endDate → endDate - now ≤ threshold →
        resolveStatus endDate now threshold = MemberStatus.expiring) ∧
      (now ≤ endDate → threshold < endDate - now →
        resolveStatus endDate now threshold = MemberStatus.active)) ∧
    (∀ today : Int,
      resolveStatus (today + 3) today 7 = MemberStatus.expiring ∧
      resolveStatus (today - 1) today 7 = MemberStatus.expired ∧
      resolveStatus (today + 30) today 7 = MemberStatus.active) := by
  constructor
  · intro endDate now threshold
    refine ⟨?_, ?_, ?_⟩ <;> intro h <;> unfold resolveStatus
    · rw [if_pos h]
    · intro h2
      rw [if_neg (by omega), if_pos h2]
    · intro h2
      rw [if_neg (by omega), if_neg (by omega)]
  · intro today
    refine ⟨?_, ?_, ?_⟩ <;> unfold resolveStatus
    · rw [if_neg (by omega), if_pos (by omega)]
    · rw [if_pos (by omega)]
    · rw [if_neg (by omega), if_neg (by omega)]

theorem resolveStatus_cases_witness :
    resolveStatus 3 0 7 = MemberStatus.expiring ∧
    resolveStatus (-1) 0 7 = MemberStatus.expired ∧
    resolveStatus 30 0 7 = MemberStatus.active ∧
    resolveStatus 10 11 7 = MemberStatus.expired :=
  ⟨by simpa using (resolveStatus_cases.2 0).1,
   by simpa using (resolveStatus_cases.2 0).2.1,
   by simpa using (resolveStatus_cases.2 0).2.2,
   (resolveStatus_cases.1 10 11 7).1 (by norm_num)⟩

/-- Claim C5: on a successful enrollment whose selected plan id matches a
loaded plan with `duration_months ≥ 1`, the inserted assignment's end date
is the resolved start date advanced by that plan's `duration_months` months
via the core's calendar arithmetic, and the start date resolves to "today"
when the form's start date is absent. -/
theorem enroll_end_date_from_plan (fd : EnrollForm) (plans : List PlanRow)
    (today : Date) (newMemberId : String) (r : Repo) (p : PlanRow)
    (h1 : fd.firstName ≠ "") (h2 : fd.lastName ≠ "") (h3 : fd.email ≠ "")
    (h4 : fd.membershipPlan ≠ "")
    (hp : plans.find? (fun q => q.id == fd.membershipPlan) = some p)
    (hd : 1 ≤ p.duration_months)
    (hm : r.memberInsertOk = true) (ha : r.assignInsertOk = true) :
    (enroll fd plans today newMemberId r).1 = EnrollResult.success ∧
    (enroll fd plans today newMemberId r).2.assignments = r.assignments ++
      [{ member_id := newMemberId
         membership_plan_id := fd.membershipPlan
         start_date := fd.startDate.getD today
         end_date := addMonthsJS (fd.startDate.getD today) p.duration_months
         is_active := true }] ∧
    (fd.startDate = none → fd.startDate.getD today = today) := by
  unfold enroll Repo.insertMemberRow Repo.insertAssignmentRow
  rw [if_neg (by simp [h1, h2, h3, h4])]
  simp only [hm, ha, selectedPlanMonths, hp]
  refine ⟨?_, ?_, ?_⟩
  · simp [Nat.one_le_iff_ne_zero.mp hd]
  · simp [Nat.one_le_iff_ne_zero.mp hd]
  · intro hnone
    rw [hnone]
    rfl

theorem enroll_end_date_from_plan_witness :
    (enroll sampleForm [samplePlan] sampleDate "m1" stubRepoOk).1 =
      EnrollResult.success ∧
    (enroll sampleForm [samplePlan] sampleDate "m1" stubRepoOk).2.assignments =
      stubRepoOk.assignments ++
      [{ member_id := "m1"
         membership_plan_id := sampleForm.membershipPlan
         start_date := sampleForm.startDate.getD sampleDate
         end_date :=
           addMonthsJS (sampleForm.startDate.getD sampleDate)
             samplePlan.duration_months
         is_active := true }] ∧
    (sampleForm.startDate = none →
      sampleForm.startDate.getD sampleDate = sampleDate) :=
  enroll_end_date_from_plan sampleForm [samplePlan] sampleDate "m1"
    stubRepoOk samplePlan (by decide) (by decide) (by decide) (by decide)
    (by decide) (by decide) rfl rfl

/-- Claim C6 (counterexample): the claim says enrollment never writes a
literal status value into the inserted Member row, yet on a concrete valid
draft the row handed to the members insert carries the hard-coded
`status: "active"` — its status field is not absent. -/
theorem enroll_writes_literal_status_counterexample :
    (memberRowOfForm sampleForm).status = some "active" ∧
    ¬ (memberRowOfForm sampleForm).status = none ∧
    (enroll sampleForm [] sampleDate "m1" stubRepoOk).2.calls.head? =
      some (RepoOp.insertMember
        { first_name := "Ann", last_name := "Lee"
          email := "ann@example.com", phone := "", address := ""
          emergency_contact_name := "", emergency_contact_phone := ""
          notes := "", status := some "active" }) :=
  ⟨rfl, by decide, by decide⟩

/-- Claim C6 (amended): every Member row the enrollment workflow hands to
the members insert carries the hard-coded literal status `"active"` — the
status is hand-set at creation, not derived from stored dates. -/
theorem enroll_status_always_literal_active (fd : EnrollForm)
    (plans : List PlanRow) (today : Date) (newMemberId : String) (r : Repo)
    (h1 : fd.firstName ≠ "") (h2 : fd.lastName ≠ "") (h3 : fd.email ≠ "")
    (h4 : fd.membershipPlan ≠ "") (hc : r.calls = []) :
    ∀ row : MemberRow,
      RepoOp.insertMember row ∈ (enroll fd plans today newMemberId r).2.calls →
      row.status = some "active" := by
  intro row hrow
  unfold enroll Repo.insertMemberRow Repo.insertAssignmentRow at hrow
  rw [if_neg (by simp [h1, h2, h3, h4])] at hrow
  rcases hmo : r.memberInsertOk with _ | _ <;>
    rcases hao : r.assignInsertOk with _ | _ <;>
      simp only [hmo, hao, hc] at hrow <;> simp at hrow <;>
        rw [hrow] <;> rfl

theorem enroll_status_always_literal_active_witness :
    (memberRowOfForm sampleForm).status = some "active" :=
  enroll_status_always_literal_active sampleForm [] sampleDate "m1"
    stubRepoOk (by decide) (by decide) (by decide) (by decide) rfl
    (memberRowOfForm sampleForm) (by decide)

/-- Claim C7: saving a plan with value 30 and unit day stores
`duration_months = ceil(30/30) = 1`; reloading it for edit re-expresses the
duration as value 1, unit month; and re-saving the reloaded form without
changes stores the same duration 1 — the round trip is idempotent. -/
theorem plan_day30_roundtrip_idempotent :
    (savePlan none
      { name := "Gold", price := "499", description := ""
        durationValue := 30, durationType := "day"
        selectedClasses := ["Yoga", "HIIT"] } "p1" none).2 =
      [PlanRepoOp.insertPlan
        { id := "p1", name := "Gold", price := "499", description := ""
          duration_months := 1, features := ["Yoga", "HIIT"] }] ∧
    loadPlan
      { id := "p1", name := "Gold", price := "499", description := ""
        duration_months := 1, features := ["Yoga", "HIIT"] } =
      { name := "Gold", price := "499", description := ""
        durationValue := 1, durationType := "month"
        selectedClasses := ["Yoga", "HIIT"] } ∧
    (savePlan (some "p1")
      (loadPlan
        { id := "p1", name := "Gold", price := "499", description := ""
          duration_months := 1, features := ["Yoga", "HIIT"] }) "p2" none).2 =
      [PlanRepoOp.updatePlan "p1"
        { id := "p1", name := "Gold", price := "499", description := ""
          duration_months := 1, features := ["Yoga", "HIIT"] }] :=
  ⟨by decide, by decide, by decide⟩

/-- Claim C8: `computeEndDate` with one month starting 2024-01-31 yields
the single deterministic result 2024-03-02 — the JavaScript `setMonth`
rollover rule (day 31 spills past the 29 days of February 2024) — and it
is a pure function, so every call returns this same result. -/
theorem computeEndDate_jan31_rollover :
    computeEndDate ⟨2024, 1, 31⟩ 1 "month" = ⟨2024, 3, 2⟩ ∧
    addMonthsJS ⟨2024, 1, 31⟩ 1 = ⟨2024, 3, 2⟩ :=
  ⟨by decide, by decide⟩

/-- Claim C9 (counterexample): the claim says every plan save with zero
selected features returns a validation error, but the in-memory Memberships
dialog accepts a submission whose features text parses to zero features and
creates the plan card. -/
theorem dialog_zero_features_accepted_counterexample :
    featuresArrayOf "" = [] ∧
    dialogSubmit
      { name := "Gold", price := "10", duration := "1", features := "" }
      false = DialogOutcome.created "Gold" "10" "1" [] ∧
    dialogSubmit
      { name := "Gold", price := "10", duration := "1", features := "" }
      false ≠ DialogOutcome.validationError :=
  ⟨by decide, by decide, by decide⟩

/-- Claim C9 (amended): in the repository-backed plan editor, a submission
missing the name, missing the price, or with zero selected features returns
the validation error and issues no persistence call, and a submission with
all three present proceeds past validation; the in-memory Memberships
dialog instead requires name, price and duration to be non-empty and does
not reject zero features. -/
theorem plan_save_validation_rules (editingId : Option String) (f : PlanForm)
    (newPlanId : String) (repoError : Option String) :
    ((f.name = "" ∨ f.price = "" ∨ f.selectedClasses = []) →
      savePlan editingId f newPlanId repoError =
        (SaveResult.validationError, [])) ∧
    (f.name ≠ "" → f.price ≠ "" → f.selectedClasses ≠ [] →
      (savePlan editingId f newPlanId repoError).1 ≠
        SaveResult.validationError) ∧
    (∀ g : DialogForm, ∀ e : Bool,
      dialogSubmit g e = DialogOutcome.validationError ↔
        (g.name = "" ∨ g.price = "" ∨ g.duration = "")) := by
  refine ⟨?_, ?_, ?_⟩
  · intro h
    unfold savePlan
    rw [if_pos h]
  · intro hn hp hc
    unfold savePlan
    rw [if_neg (by simp [hn, hp, hc])]
    rcases repoError with _ | msg <;> simp
  · intro g e
    constructor
    · intro h
      by_contra hno
      unfold dialogSubmit at h
      rw [if_neg hno] at h
      rcases e with _ | _ <;> simp at h
    · intro h
      unfold dialogSubmit
      rw [if_pos h]

theorem plan_save_validation_rules_witness :
    savePlan none
      { name := "", price := "10", description := "", durationValue := 1
        durationType := "month", selectedClasses := ["Yoga"] } "p1" none =
      (SaveResult.validationError, []) ∧
    (savePlan none
      { name := "Gold", price := "10", description := "", durationValue := 1
        durationType := "month", selectedClasses := ["Yoga"] } "p1" none).1 ≠
      SaveResult.validationError ∧
    (dialogSubmit
      { name := "Gold", price := "10", duration := "1", features := "" }
      false = DialogOutcome.validationError ↔
      (("Gold" : String) = "" ∨ ("10" : String) = "" ∨ ("1" : String) = "")) :=
  ⟨(plan_save_validation_rules none
      { name := "", price := "10", description := "", durationValue := 1
        durationType := "month", selectedClasses := ["Yoga"] } "p1" none).1
      (by simp),
   (plan_save_validation_rules none
      { name := "Gold", price := "10", description := "", durationValue := 1
        durationType := "month", selectedClasses := ["Yoga"] } "p1" none).2.1
      (by decide) (by decide) (by decide),
   (plan_save_validation_rules none
      { name := "Gold", price := "10", description := "", durationValue := 1
        durationType := "month", selectedClasses := ["Yoga"] } "p1" none).2.2
      { name := "Gold", price := "10", duration := "1", features := "" }
      false⟩

/-- Claim C10: when the selected plan id matches no loaded plan, enrollment
still proceeds — the member and the assignment are inserted — and the
assignment's end date is the start date advanced by the fallback duration
of one month (`selectedPlan?.duration_months || 1`). -/
theorem enroll_unknown_plan_fallback_one_month (fd : EnrollForm)
    (plans : List PlanRow) (today : Date) (newMemberId : String) (r : Repo)
    (h1 : fd.firstName ≠ "") (h2 : fd.lastName ≠ "") (h3 : fd.email ≠ "")
    (h4 : fd.membershipPlan ≠ "")
    (hp : plans.find? (fun q => q.id == fd.membershipPlan) = none)
    (hm : r.memberInsertOk = true) (ha : r.assignInsertOk = true) :
    (enroll fd plans today newMemberId r).1 = EnrollResult.success ∧
    (enroll fd plans today newMemberId r).2.assignments = r.assignments ++
      [{ member_id := newMemberId
         membership_plan_id := fd.membershipPlan
         start_date := fd.startDate.getD today
         end_date := addMonthsJS (fd.startDate.getD today) 1
         is_active := true }] := by
  unfold enroll Repo.insertMemberRow Repo.insertAssignmentRow
  rw [if_neg (by simp [h1, h2, h3, h4])]
  simp only [hm, ha, selectedPlanMonths, hp]
  simp

theorem enroll_unknown_plan_fallback_one_month_witness :
    (enroll sampleForm [] sampleDate "m1" stubRepoOk).1 =
      EnrollResult.success ∧
    (enroll sampleForm [] sampleDate "m1" stubRepoOk).2.assignments =
      stubRepoOk.assignments ++
      [{ member_id := "m1"
         membership_plan_id := sampleForm.membershipPlan
         start_date := sampleForm.startDate.getD sampleDate
         end_date := addMonthsJS (sampleForm.startDate.getD sampleDate) 1
         is_active := true }] :=
  enroll_unknown_plan_fallback_one_month sampleForm [] sampleDate "m1"
    stubRepoOk (by decide) (by decide) (by decide) (by decide) rfl rfl rfl

end SWC
